import Mathlib

/-!
Verification development for the top_trader_axiom_crawler repository.

The Python sources are shallowly embedded as Lean definitions:
pure computations become Lean functions, stateful loops become explicit
recursion over the sequence of environment responses, machine floats on
decimal inputs are modelled as rationals, and fallible code returns
Option/Except.  Definition names follow the Python names where possible.
-/

/-! ## Generic string/list helpers (model of Python primitives) -/

/-- Model of the Python substring test `needle in hay` on character lists. -/
def isInfixB (needle : List Char) : List Char → Bool
  | [] => needle.isEmpty
  | c :: rest => needle.isPrefixOf (c :: rest) || isInfixB needle rest

/-- Model of Python `str.strip()`: drop whitespace from both ends. -/
def trimChars (cs : List Char) : List Char :=
  ((cs.dropWhile Char.isWhitespace).reverse.dropWhile Char.isWhitespace).reverse

/-- Model of `re.findall(r"\d+", s)[0]`: the first maximal run of digits, if any. -/
def firstDigitRun : List Char → Option (List Char)
  | [] => none
  | c :: rest => if c.isDigit then some (c :: rest.takeWhile Char.isDigit) else firstDigitRun rest

/-- Model of Python `int()` on a digit run. -/
def digitsToNat (cs : List Char) : Nat :=
  cs.foldl (fun a c => a * 10 + (c.toNat - 48)) 0

/-- Suffix of `cs` after the first occurrence of `sep`, if `sep` occurs. -/
def dropThroughSep (sep : List Char) : List Char → Option (List Char)
  | [] => none
  | c :: rest =>
    if sep.isPrefixOf (c :: rest) then some ((c :: rest).drop sep.length)
    else dropThroughSep sep rest

/-- Fuel-driven iteration of `dropThroughSep`, yielding the text after the
last occurrence of `sep` (the last element of Python `s.split(sep)`). -/
def lastSegAux (sep : List Char) : Nat → List Char → List Char
  | 0, cs => cs
  | fuel + 1, cs =>
    match dropThroughSep sep cs with
    | none => cs
    | some rest => lastSegAux sep fuel rest

/-- Model of Python `s.split(sep)[-1]` for a non-empty separator. -/
def lastSeg (sep : String) (s : String) : String :=
  String.mk (lastSegAux sep.data s.data.length s.data)

/-- Model of Python `s.split("\n")` on character lists. -/
def splitOnNl : List Char → List (List Char)
  | [] => [[]]
  | c :: rest =>
    let r := splitOnNl rest
    if c = '\n' then [] :: r
    else
      match r with
      | [] => [[c]]
      | h :: t => (c :: h) :: t

/-- Decimal digits of a positive natural, most significant first (fuel-driven). -/
def natDigitsAux : Nat → Nat → List Char
  | 0, _ => []
  | fuel + 1, n =>
    if n = 0 then [] else natDigitsAux fuel (n / 10) ++ [Nat.digitChar (n % 10)]

/-- Decimal digit list of a natural number (`"0"` for zero). -/
def natDigitList (n : Nat) : List Char :=
  if n = 0 then ['0'] else natDigitsAux n n

/-- Decimal string of a natural number, as Python `str` renders it. -/
def natStr (n : Nat) : String := String.mk (natDigitList n)

/-! ## C1: SolanaRPCClient._retry_request -/

/-- Embedding of the attempt loop of `SolanaRPCClient._retry_request`
(src/solana_rpc_client.py lines 46-82).  `canSwitch` is the success of
`_switch_rpc_url` (true iff an alternate endpoint remains in the pool);
`respond attempt` is `some v` when the RPC call of that attempt returns a
response whose `.value` is usable, and `none` when it fails, is empty, or
raises.  The pair returned is the final result and the number of requests
actually issued.  On the first retry (`attempt = 1`) the code tries to
switch endpoint and `break`s out of the loop when no alternate exists. -/
def retryAttemptLoop (canSwitch : Bool) (respond : Nat → Option Nat) :
    Nat → Nat → Nat → Option Nat × Nat
  | 0, _, calls => (none, calls)
  | remaining + 1, attempt, calls =>
    if attempt = 1 ∧ canSwitch = false then (none, calls)
    else
      match respond attempt with
      | some v => (some v, calls + 1)
      | none => retryAttemptLoop canSwitch respond remaining (attempt + 1) (calls + 1)

/-- Embedding of `SolanaRPCClient._retry_request` with `max_retries` retries:
the loop runs over attempts `0 .. max_retries` and gives up returning `none`. -/
def retry_request (canSwitch : Bool) (respond : Nat → Option Nat) (maxRetries : Nat) :
    Option Nat × Nat :=
  retryAttemptLoop canSwitch respond (maxRetries + 1) 0 0

/-! ## C2: solscan_scraper.parse_time_text -/

/-- Result of `parse_time_text` (src/solscan_scraper.py lines 583-645),
expressed relative to the evaluation instant `now`:
`agoSeconds n` means the function returned `now - n` seconds,
`absoluteMatch` means one of the fixed `strptime` formats matched (the
absolute instant itself is independent of `now`),
`assumeNowWarn` is the "could not parse, assuming recent" warning path
returning `now`, and `assumeNowError` is the outer exception handler
(e.g. no digits found) which also returns `now`. -/
inductive TimeParseResult where
  | agoSeconds (n : Int)
  | absoluteMatch
  | assumeNowWarn
  | assumeNowError
deriving DecidableEq

/-- Relative branch body: extract the first digit run and multiply by the
unit; a missing digit run raises IndexError in Python, caught by the outer
handler which returns `now`. -/
def relBranch (cs : List Char) (unitSeconds : Int) : TimeParseResult :=
  match firstDigitRun cs with
  | none => .assumeNowError
  | some run => .agoSeconds ((digitsToNat run : Int) * unitSeconds)

/-- Lowercase month abbreviations accepted by `strptime` directive `%b`. -/
def monthAbbrevs : List (List Char) :=
  ["jan", "feb", "mar", "apr", "may", "jun", "jul", "aug", "sep", "oct", "nov", "dec"].map
    String.data

/-- Lowercase full month names accepted by `strptime` directive `%B`. -/
def monthFulls : List (List Char) :=
  ["january", "february", "march", "april", "may", "june", "july", "august",
   "september", "october", "november", "december"].map String.data

/-- Name alternatives for a directive: each name that is a (case-insensitive)
prefix of the input yields the remaining input. -/
def matchNames (names : List (List Char)) (input : List Char) : List (List Char) :=
  names.filterMap fun nm =>
    if (input.take nm.length).map Char.toLower = nm then some (input.drop nm.length) else none

/-- One- or two-digit numeric field (backtracking over both widths), as
Python `strptime` matches `%d`, `%m`, `%H`, `%I`, `%M`, `%S` (numeric value
ranges are not re-checked here; the claims never exercise them). -/
def twoOrOneDigit (input : List Char) : List (List Char) :=
  match input with
  | c1 :: c2 :: rest =>
    if c1.isDigit then
      if c2.isDigit then [rest, c2 :: rest] else [c2 :: rest]
    else []
  | [c1] => if c1.isDigit then [[]] else []
  | [] => []

/-- Possible remaining inputs after consuming one `strptime` directive. -/
def dirOptions (d : Char) (input : List Char) : List (List Char) :=
  if d = 'Y' then
    if (input.take 4).length = 4 ∧ (input.take 4).all Char.isDigit then [input.drop 4] else []
  else if d = 'd' ∨ d = 'm' ∨ d = 'H' ∨ d = 'I' ∨ d = 'M' ∨ d = 'S' then
    twoOrOneDigit input
  else if d = 'b' then matchNames monthAbbrevs input
  else if d = 'B' then matchNames monthFulls input
  else if d = 'p' then matchNames ["am".data, "pm".data] input
  else []

/-- Does the format (with `%`-directives) match the whole input, in the sense
of Python `datetime.strptime` succeeding?  Structural on the format. -/
def matchFmt : List Char → List Char → Bool
  | [], input => input.isEmpty
  | '%' :: d :: rest, input => (dirOptions d input).any fun remaining => matchFmt rest remaining
  | c :: rest, input =>
    match input with
    | [] => false
    | i :: irest => c = i && matchFmt rest irest

/-- The fixed absolute date formats tried by `parse_time_text`
(src/solscan_scraper.py lines 622-629). -/
def dateFormats : List String :=
  ["%b %d, %Y %I:%M %p",
   "%B %d, %Y %I:%M %p",
   "%Y-%m-%d %H:%M:%S",
   "%Y-%m-%d %H:%M",
   "%d/%m/%Y %H:%M:%S",
   "%m/%d/%Y %H:%M:%S"]

/-- Embedding of `parse_time_text` (src/solscan_scraper.py lines 583-645).
The branch structure mirrors the source exactly: the relative branches fire
only when the substring `"ago"` occurs; each branch tests its keyword by
substring on the lowercased text (`"sec"`, `"min"`, `"hr"`, `"day"`,
`"week"`, `"month"`, `"year"`); otherwise the fixed absolute formats are
tried; otherwise the warning path returns `now`. -/
def parse_time_text (raw : String) : TimeParseResult :=
  let cs := trimChars raw.data
  let lower := cs.map Char.toLower
  if isInfixB "ago".data lower then
    if isInfixB "just now".data lower then .agoSeconds 0
    else if isInfixB "sec".data lower || isInfixB "second".data lower then relBranch cs 1
    else if isInfixB "min".data lower || isInfixB "minute".data lower then relBranch cs 60
    else if isInfixB "hr".data lower then relBranch cs 3600
    else if isInfixB "day".data lower then relBranch cs 86400
    else if isInfixB "week".data lower then relBranch cs 604800
    else if isInfixB "month".data lower then relBranch cs (30 * 86400)
    else if isInfixB "year".data lower then relBranch cs (365 * 86400)
    else if dateFormats.any (fun f => matchFmt f.data cs) then .absoluteMatch
    else .assumeNowWarn
  else if dateFormats.any (fun f => matchFmt f.data cs) then .absoluteMatch
  else .assumeNowWarn


/-! ## Exact rational arithmetic helpers

The Python code computes on floats read from decimal strings; this
development models those values as rationals.  The kernel cannot evaluate
the opaque core `Rat` operations, so the embedding performs its rational
arithmetic through `Rat.divInt` on numerators and denominators; the bridge
lemmas `qSub_eq` and `qLtB_iff` below show these agree with the standard
operations. -/

/-- Exact subtraction on rationals via numerator/denominator arithmetic. -/
def qSub (a b : ℚ) : ℚ :=
  Rat.divInt (a.num * (b.den : ℤ) - b.num * (a.den : ℤ)) ((a.den : ℤ) * (b.den : ℤ))

/-- Strict comparison on rationals via numerator/denominator arithmetic. -/
def qLtB (a b : ℚ) : Bool :=
  a.num * (b.den : ℤ) < b.num * (a.den : ℤ)

/-! ## Fixed-precision decimal formatting (Python f"{x:.6f}") -/

/-- Round `a / b` (with `b > 0`) to the nearest natural, ties to even, as
Python's float formatting rounds magnitudes. -/
def roundHalfEvenNat (a b : Nat) : Nat :=
  let f := a / b
  let r := a % b
  if 2 * r < b then f
  else if b < 2 * r then f + 1
  else if f % 2 = 0 then f else f + 1

/-- The six fractional digits of `n < 10^6`, most significant first. -/
def sixFrac (n : Nat) : List Char :=
  [Nat.digitChar (n / 100000 % 10), Nat.digitChar (n / 10000 % 10),
   Nat.digitChar (n / 1000 % 10), Nat.digitChar (n / 100 % 10),
   Nat.digitChar (n / 10 % 10), Nat.digitChar (n % 10)]

/-- Model of Python `f"{x:.6f}"` on a rational: sign, integer digits, a dot,
then exactly six fractional digits of the magnitude scaled by 10^6 and
rounded half-to-even. -/
def format6 (q : ℚ) : String :=
  let m := roundHalfEvenNat (q.num.natAbs * 1000000) q.den
  let sign : List Char := if q.num < 0 then ['-'] else []
  String.mk (sign ++ natDigitList (m / 1000000) ++ '.' :: sixFrac (m % 1000000))

/-- Does the string consist of a single `'.'` with exactly six characters
after it?  This is the "fixed-precision decimal with 6 decimal places" shape. -/
def sixDecimalsB (s : String) : Bool :=
  s.data.count '.' = 1 && ((s.data.dropWhile (fun c => c ≠ '.')).drop 1).length = 6

/-! ## SolanaRPCClient data model -/

/-- The two Axiom program IDs of src/solana_rpc_client.py lines 14-17. -/
def AXIOM_PROGRAM_IDS : List String :=
  ["AxiomfHaWDemCFBLBayqnEnNwE6b7B2Qz3UmzMpgbMG6",
   "AxiomxSitiyXyPjKgJ9XSrdhsydtZsskZTEDam3PxKcC"]

/-- One entry of `pre_token_balances` / `post_token_balances`, with the
`uiAmountString` already read as a rational (the source's `float()` of a
decimal string; a parse failure defaults to 0 upstream of this model). -/
structure UiTokenBalance where
  accountIndex : Int
  owner : String
  mint : String
  uiAmount : ℚ
deriving DecidableEq

/-- The `meta` part of an RPC transaction response. -/
structure TxMeta where
  fee : Nat
  preBalances : List Int
  postBalances : List Int
  preTokenBalances : List UiTokenBalance
  postTokenBalances : List UiTokenBalance
  logMessages : List String
deriving DecidableEq

/-- The `tx_response.value` object: slot, optional block time, the message's
account keys and signatures (source path
`transaction.transaction.transaction.message`), the number of message
instructions, and the optional meta. -/
structure TxValue where
  slot : Nat
  blockTime : Option Int
  accountKeys : List String
  signatures : List String
  numInstructions : Nat
  meta : Option TxMeta
deriving DecidableEq

/-- One entry of a `get_signatures_for_address` response. -/
structure SigInfo where
  signature : String
  slot : Nat
  blockTime : Option Int
  err : Bool
deriving DecidableEq

/-- The source reads `block_time` with `getattr(...) or getattr(...)`; a
block time of 0 is falsy in Python and is treated as absent. -/
def blockTimeVal (tx : TxValue) : Option Int :=
  match tx.blockTime with
  | some t => if t = 0 then none else some t
  | none => none

/-- Embedding of `SolanaRPCClient._format_time_ago`
(src/solana_rpc_client.py lines 618-632) on instants in Unix seconds;
`timedelta` normalizes with floor division. -/
def format_time_ago (nowSec tSec : Int) : String :=
  let diff := nowSec - tSec
  let days := diff.fdiv 86400
  let secs := diff.fmod 86400
  if 0 < days then
    natStr days.toNat ++ " day" ++ (if 1 < days then "s" else "") ++ " ago"
  else if 3600 < secs then
    let hours := secs.fdiv 3600
    natStr hours.toNat ++ " hr" ++ (if 1 < hours then "s" else "") ++ " ago"
  else if 60 < secs then
    let minutes := secs.fdiv 60
    natStr minutes.toNat ++ " min" ++ (if 1 < minutes then "s" else "") ++ " ago"
  else "just now"

/-- Embedding of `SolanaRPCClient._transaction_involves_axiom`
(src/solana_rpc_client.py lines 257-282): some account key equals an Axiom
program ID. -/
def transaction_involves_axiom (tx : TxValue) : Bool :=
  tx.accountKeys.any fun k => AXIOM_PROGRAM_IDS.contains k

/-- Embedding of `SolanaRPCClient._extract_instructions`
(src/solana_rpc_client.py lines 330-383): scan the log messages for buy /
sell / swap markers (each at most once), else fall back to an
instruction-count label, else `"Unknown"`. -/
def extract_instructions_logs :
    List String → List String → Bool → Bool → List String
  | [], acc, _, _ => acc
  | log :: rest, acc, foundBuy, foundSell =>
    let lower := log.data.map Char.toLower
    if isInfixB "instruction: buy".data lower ∧ foundBuy = false then
      extract_instructions_logs rest (acc ++ ["buy"]) true foundSell
    else if isInfixB "instruction: sell".data lower ∧ foundSell = false then
      extract_instructions_logs rest (acc ++ ["sell"]) foundBuy true
    else if isInfixB "swap".data lower then
      (if acc.contains "swap" then extract_instructions_logs rest acc foundBuy foundSell
       else extract_instructions_logs rest (acc ++ ["swap"]) foundBuy foundSell)
    else extract_instructions_logs rest acc foundBuy foundSell

/-- Combined `_extract_instructions` result for a transaction. -/
def extract_instructions (tx : TxValue) : List String :=
  let logs := match tx.meta with
    | some m => m.logMessages
    | none => []
  let acc := extract_instructions_logs logs [] false false
  let acc2 := if acc.isEmpty ∧ 1 < tx.numInstructions then
      [natStr tx.numInstructions ++ "+"]
    else acc
  if acc2.isEmpty then ["Unknown"] else acc2

/-- Embedding of `SolanaRPCClient._extract_signer`
(src/solana_rpc_client.py lines 385-407): the first account key, or `""`. -/
def extract_signer (tx : TxValue) : String :=
  match tx.accountKeys with
  | [] => ""
  | k :: _ => k

/-- Inner loop of `_extract_transaction_value`: fold the maximum of
`abs(post - pre) / 1e9` over index-aligned balances. -/
def maxAbsDeltaLoop : List Int → List Int → ℚ → ℚ
  | p :: ps, q :: qs, acc =>
    let c : ℚ := Rat.divInt ((q - p).natAbs : ℤ) 1000000000
    maxAbsDeltaLoop ps qs (if qLtB acc c then c else acc)
  | _, _, acc => acc

/-- Embedding of `SolanaRPCClient._extract_transaction_value`
(src/solana_rpc_client.py lines 409-445): largest absolute SOL delta across
accounts, in SOL; 0 when either balance list is missing or empty. -/
def extract_transaction_value (tx : TxValue) : ℚ :=
  match tx.meta with
  | none => 0
  | some m =>
    if m.preBalances.isEmpty ∨ m.postBalances.isEmpty then 0
    else maxAbsDeltaLoop m.preBalances m.postBalances 0

/-- The canonical transaction record built by `_parse_transaction`
(src/solana_rpc_client.py lines 284-328).  The `timestamp` field holds the
block instant in Unix seconds (the source stores its ISO-8601 rendering). -/
structure CanonTx where
  signature : String
  block : String
  time : String
  timestamp : Option Int
  instructions : List String
  byAddr : String
  value : String
  fee : String
  page : Nat
deriving DecidableEq

/-- Embedding of `SolanaRPCClient._parse_transaction`
(src/solana_rpc_client.py lines 284-328).  `value` is the 6-decimal
rendering of the max SOL delta, except that a zero value is rendered as the
bare string "0" (Python `if value_sol` falsy check); `fee` is always the
6-decimal rendering of `fee_lamports / 1e9`. -/
def parse_transaction (nowSec : Int) (tx : TxValue) (sigInfo : SigInfo) : CanonTx :=
  let block := if sigInfo.slot ≠ 0 then sigInfo.slot else tx.slot
  let feeLamports := match tx.meta with
    | some m => m.fee
    | none => 0
  let valueSol := extract_transaction_value tx
  { signature := sigInfo.signature
    block := natStr block
    time := match blockTimeVal tx with
      | some t => format_time_ago nowSec t
      | none => "Unknown"
    timestamp := blockTimeVal tx
    instructions := extract_instructions tx
    byAddr := extract_signer tx
    value := if valueSol ≠ 0 then format6 valueSol else "0"
    fee := format6 (Rat.divInt (feeLamports : ℤ) 1000000000)
    page := 1 }

/-! ## SolanaRPCClient._extract_balance_changes (C5, C6) -/

/-- First index of `address` among the account keys, or -1, as the source's
linear scan computes (src/solana_rpc_client.py lines 516-520). -/
def addressIndexAux (address : String) : Int → List String → Int
  | _, [] => -1
  | i, k :: rest => if k = address then i else addressIndexAux address (i + 1) rest

/-- The `address_idx` of `_extract_balance_changes`. -/
def addressIndex (keys : List String) (address : String) : Int :=
  addressIndexAux address 0 keys

/-- A token-balance entry participates when its account index equals the
inspected index or its owner equals the inspected address
(src/solana_rpc_client.py lines 546, 571). -/
def matchesAddress (addressIdx : Int) (address : String) (b : UiTokenBalance) : Bool :=
  b.accountIndex == addressIdx || b.owner == address

/-- Python `token_bal_changes[mint] = {'pre': amt, 'post': 0, 'mint': mint}`:
replace the value at an existing key in place, else append a new entry.
Entries are `(mint, pre, post)`. -/
def setPre (m : String) (amt : ℚ) : List (String × ℚ × ℚ) → List (String × ℚ × ℚ)
  | [] => [(m, amt, 0)]
  | (k, pq) :: rest => if k = m then (k, amt, 0) :: rest else (k, pq) :: setPre m amt rest

/-- Python post-loop update: set the `post` component at an existing key
keeping its `pre`, else insert `{'pre': 0, 'post': amt}`. -/
def setPost (m : String) (amt : ℚ) : List (String × ℚ × ℚ) → List (String × ℚ × ℚ)
  | [] => [(m, 0, amt)]
  | (k, pq) :: rest => if k = m then (k, pq.1, amt) :: rest else (k, pq) :: setPost m amt rest

/-- The pre-token-balance loop of `_extract_balance_changes`
(src/solana_rpc_client.py lines 529-552), over the already-filtered entries. -/
def applyPre : List UiTokenBalance → List (String × ℚ × ℚ) → List (String × ℚ × ℚ)
  | [], acc => acc
  | b :: rest, acc => applyPre rest (setPre b.mint b.uiAmount acc)

/-- The post-token-balance loop of `_extract_balance_changes`
(src/solana_rpc_client.py lines 554-581), over the already-filtered entries. -/
def applyPost : List UiTokenBalance → List (String × ℚ × ℚ) → List (String × ℚ × ℚ)
  | [], acc => acc
  | b :: rest, acc => applyPost rest (setPost b.mint b.uiAmount acc)

/-- Mints of the entries of `l` that match the inspected address, in order. -/
def matchedMints (idx : Int) (addr : String) (l : List UiTokenBalance) : List String :=
  (l.filter (matchesAddress idx addr)).map UiTokenBalance.mint

/-- The `token_bal_changes` map of `_extract_balance_changes` as an
insertion-ordered association list `(mint, pre, post)`. -/
def mergeTokenBalances (idx : Int) (addr : String)
    (preL postL : List UiTokenBalance) : List (String × ℚ × ℚ) :=
  applyPost (postL.filter (matchesAddress idx addr))
    (applyPre (preL.filter (matchesAddress idx addr)) [])

/-- Lookup in the merged association list (Python dict access). -/
def lookupMint (m : String) : List (String × ℚ × ℚ) → Option (ℚ × ℚ)
  | [] => none
  | (k, pq) :: rest => if k = m then some pq else lookupMint m rest

/-- A balance-change record, with the numeric delta and post balance kept as
rationals (the source renders them as grouped fixed-precision strings at
emission; no claim concerns that rendering). -/
structure BalanceChangeRec where
  signature : String
  block : String
  time : String
  amount : ℚ
  postBalance : ℚ
  tokenName : String
  tokenAddress : String
deriving DecidableEq

/-- The SOL pseudo-mint sentinel used by the source. -/
def SOL_PSEUDO_MINT : String := "So11111111111111111111111111111111111111111"

/-- The token emission loop of `_extract_balance_changes`
(src/solana_rpc_client.py lines 583-595): one record per merged mint whose
delta `post - pre` is non-zero, in map insertion order. -/
def emitTokenChanges (resolve : String → String) (sig blockStr timeText : String)
    (merged : List (String × ℚ × ℚ)) : List BalanceChangeRec :=
  merged.filterMap fun e =>
    if qSub e.2.2 e.2.1 = 0 then none
    else some { signature := sig, block := blockStr, time := timeText,
                amount := qSub e.2.2 e.2.1, postBalance := e.2.2,
                tokenName := resolve e.1, tokenAddress := e.1 }

/-- The native-SOL emission of `_extract_balance_changes`
(src/solana_rpc_client.py lines 597-614): one record when the address's
account index is in range for both balance lists and the SOL delta is
non-zero. -/
def emitSolChange (sig blockStr timeText : String) (idx : Int)
    (preS postS : List Int) : List BalanceChangeRec :=
  if 0 ≤ idx ∧ idx.toNat < preS.length ∧ idx.toNat < postS.length then
    if qSub (Rat.divInt (postS.getD idx.toNat 0) 1000000000)
        (Rat.divInt (preS.getD idx.toNat 0) 1000000000) = 0 then []
    else [{ signature := sig, block := blockStr, time := timeText,
            amount := qSub (Rat.divInt (postS.getD idx.toNat 0) 1000000000)
              (Rat.divInt (preS.getD idx.toNat 0) 1000000000),
            postBalance := Rat.divInt (postS.getD idx.toNat 0) 1000000000,
            tokenName := "SOL", tokenAddress := SOL_PSEUDO_MINT }]
  else []

/-- Embedding of `SolanaRPCClient._extract_balance_changes`
(src/solana_rpc_client.py lines 447-616).  `resolve` stands for
`_get_token_name` (a network lookup, passed in as an oracle).  Token
balance entries are merged per mint, then a record is emitted for every
mint whose delta `post - pre` is non-zero; the native SOL balance at the
address's account index contributes one more record when its delta is
non-zero. -/
def extract_balance_changes (resolve : String → String) (nowSec : Int)
    (tx : TxValue) (address : String) : List BalanceChangeRec :=
  let preT := match tx.meta with
    | some m => m.preTokenBalances
    | none => []
  let postT := match tx.meta with
    | some m => m.postTokenBalances
    | none => []
  let preS := match tx.meta with
    | some m => m.preBalances
    | none => []
  let postS := match tx.meta with
    | some m => m.postBalances
    | none => []
  let idx := addressIndex tx.accountKeys address
  let sig := match tx.signatures with
    | [] => ""
    | s :: _ => s
  let timeText := match blockTimeVal tx with
    | some t => format_time_ago nowSec t
    | none => "Unknown"
  let blockStr := natStr tx.slot
  emitTokenChanges resolve sig blockStr timeText (mergeTokenBalances idx address preT postT) ++
    emitSolChange sig blockStr timeText idx preS postS

/-! ## SolanaRPCClient.get_program_accounts (C4, RPC side) -/

/-- The result shape of `get_program_accounts`
(src/solana_rpc_client.py lines 146-152). -/
structure AddrResult where
  programId : String
  uniqueAddresses : List String
  totalFound : Nat
  targetCount : Nat
deriving DecidableEq

/-- Embedding of `SolanaRPCClient._extract_addresses_from_transaction`
(src/solana_rpc_client.py lines 226-255): the first account key (the
signer), unless it is empty or equals an Axiom program ID. -/
def extract_addresses_from_transaction (tx : TxValue) : List String :=
  match tx.accountKeys with
  | [] => []
  | k :: _ => if k ≠ "" ∧ k ∉ AXIOM_PROGRAM_IDS then [k] else []

/-- `unique_addresses.update(addresses)`: set-insert each element. -/
def insertUnique (acc : List String) (xs : List String) : List String :=
  xs.foldl (fun a x => if a.contains x then a else a ++ [x]) acc

/-- The per-signature inner loop of `get_program_accounts`
(src/solana_rpc_client.py lines 120-136): each element is the
`get_transaction` retry result for one signature; after a successful
extraction the loop breaks once the target count is reached. -/
def rpcSigsLoop (maxA : Nat) : List (Option TxValue) → List String → List String
  | [], acc => acc
  | t :: rest, acc =>
    match t with
    | some tx =>
      let acc2 := insertUnique acc (extract_addresses_from_transaction tx)
      if maxA ≤ acc2.length then acc2 else rpcSigsLoop maxA rest acc2
    | none => rpcSigsLoop maxA rest acc

/-- The pagination loop of `get_program_accounts`
(src/solana_rpc_client.py lines 107-144): each element of `responses` is
one `get_signatures_for_address` retry result (with the per-signature
transaction lookups already paired in); a missing or empty response breaks
the loop, as does exhausting the environment's response list. -/
def rpcPagesLoop (maxA : Nat) : List (Option (List (Option TxValue))) → List String → List String
  | [], acc => acc
  | page :: rest, acc =>
    if acc.length < maxA then
      match page with
      | none => acc
      | some [] => acc
      | some txs => rpcPagesLoop maxA rest (rpcSigsLoop maxA txs acc)
    else acc

/-- Embedding of `SolanaRPCClient.get_program_accounts`
(src/solana_rpc_client.py lines 84-157): collect unique signer addresses
until the target count is reached, then truncate to `max_addresses`. -/
def get_program_accounts (programId : String) (maxA : Nat)
    (responses : List (Option (List (Option TxValue)))) : AddrResult :=
  let addrs := rpcPagesLoop maxA responses []
  { programId := programId
    uniqueAddresses := addrs.take maxA
    totalFound := min addrs.length maxA
    targetCount := maxA }

/-! ## SolanaRPCClient.get_address_transactions and the trading service (C3) -/

/-- A canonical transaction with its embedded balance changes, as
`get_address_transactions` attaches them (src/solana_rpc_client.py
lines 215-219). -/
structure CanonTxFull where
  tx : CanonTx
  balanceChanges : List BalanceChangeRec
deriving DecidableEq

/-- Truthy block-time cutoff test of the signature loop
(src/solana_rpc_client.py lines 193-198): a zero block time is falsy in
Python and skips the check. -/
def sigTooOld (cutoff : Int) (s : SigInfo) : Bool :=
  match s.blockTime with
  | some bt => decide (bt ≠ 0 ∧ bt < cutoff)
  | none => false

/-- Body of the signature loop of `get_address_transactions` for one
signature (src/solana_rpc_client.py lines 200-221): skip failed signatures,
skip missing transaction lookups, keep Axiom-involving transactions with
their balance changes attached. -/
def processOneSig (resolve : String → String) (nowSec : Int) (address : String)
    (txLookup : String → Option TxValue) (s : SigInfo) : Option CanonTxFull :=
  if s.err then none
  else
    match txLookup s.signature with
    | none => none
    | some tx =>
      if transaction_involves_axiom tx then
        some { tx := parse_transaction nowSec tx s
               balanceChanges := extract_balance_changes resolve nowSec tx address }
      else none

/-- The signature loop of `get_address_transactions`
(src/solana_rpc_client.py lines 192-221): stops at the first signature
older than the cutoff. -/
def processSigs (resolve : String → String) (nowSec cutoff : Int) (address : String)
    (txLookup : String → Option TxValue) : List SigInfo → List CanonTxFull
  | [] => []
  | s :: rest =>
    if sigTooOld cutoff s then []
    else
      match processOneSig resolve nowSec address txLookup s with
      | some t => t :: processSigs resolve nowSec cutoff address txLookup rest
      | none => processSigs resolve nowSec cutoff address txLookup rest

/-- The fetch-result shape built by
`SolanaRPCClient._create_transaction_result`
(src/solana_rpc_client.py lines 731-745); `total_found` is the number of
transactions. -/
structure TradingFetchResult where
  addressId : String
  transactions : List CanonTxFull
  totalFound : Nat
  daysScraped : Nat
deriving DecidableEq

/-- Embedding of `_create_transaction_result`. -/
def create_transaction_result (address : String) (txs : List CanonTxFull)
    (days : Nat) : TradingFetchResult :=
  { addressId := address, transactions := txs, totalFound := txs.length, daysScraped := days }

/-- Embedding of `SolanaRPCClient.get_address_transactions`
(src/solana_rpc_client.py lines 159-223).  `sigResponse` is the
`get_signatures_for_address` retry result: `none` models a failed/exhausted
retry, and an empty list a response with no signatures; both take the
"No transactions found" early return.  `txLookup` gives each signature's
`get_transaction` retry result. -/
def get_address_transactions (resolve : String → String) (nowSec : Int)
    (address : String) (days : Nat) (sigResponse : Option (List SigInfo))
    (txLookup : String → Option TxValue) : TradingFetchResult :=
  let cutoff := nowSec - (days : Int) * 86400
  match sigResponse with
  | none => create_transaction_result address [] days
  | some [] => create_transaction_result address [] days
  | some sigs =>
    create_transaction_result address
      (processSigs resolve nowSec cutoff address txLookup sigs) days

/-- The aggregated result shape of `get_trading_history`
(src/solana_trading_service.py lines 37-47). -/
structure TradingHistoryResult where
  addressId : String
  daysScraped : Nat
  transactions : List CanonTxFull
  totalTransactions : Nat
  balanceChangesFound : Nat
deriving DecidableEq

/-- Embedding of `get_trading_history` (src/solana_trading_service.py
lines 10-49) applied to the fetch result: a zero `total_found` returns
`None`; otherwise the aggregate is built. -/
def get_trading_history (r : TradingFetchResult) : Option TradingHistoryResult :=
  if r.totalFound = 0 then none
  else
    some { addressId := r.addressId
           daysScraped := r.daysScraped
           transactions := r.transactions
           totalTransactions := r.totalFound
           balanceChangesFound := (r.transactions.map fun t => t.balanceChanges.length).sum }

/-! ## Scrape data source: address discovery (C4, scrape side) -/

/-- The two Axiom program IDs of src/solscan_scraper.py line 11. -/
def AXIOM_PROGRAM_ID : List String :=
  ["AxiomfHaWDemCFBLBayqnEnNwE6b7B2Qz3UmzMpgbMG6",
   "AxiomxSitiyXyPjKgJ9XSrdhsydtZsskZTEDam3PxKcC"]

/-- One row of the program page's transaction table, reduced to the fields
`extract_table_data_task` reads: the "By" cell's link target and the
"Programs" cell's link targets. -/
structure SRow where
  byHref : String
  programLinks : List String
deriving DecidableEq

/-- The row's Axiom check in `extract_table_data_task`
(src/solscan_scraper.py lines 63-71): some program link's href contains
(substring test) one of the two program IDs. -/
def srowAxiomFound (r : SRow) : Bool :=
  r.programLinks.any fun href => AXIOM_PROGRAM_ID.any fun pid => isInfixB pid.data href.data

/-- `by_address = by_link.get_attribute("href").split("/account/")[-1]`
(src/solscan_scraper.py line 58). -/
def srowByAddress (r : SRow) : String := lastSeg "/account/" r.byHref

/-- The per-row inner loop of `extract_table_data_task`
(src/solscan_scraper.py lines 53-83): add the row's "By" address when the
Axiom check passes and it is new, breaking once the target is reached.
Note that, unlike the RPC path, no check excludes a program ID itself. -/
def scrapeRowsLoop (maxA : Nat) : List SRow → List String → List String
  | [], acc => acc
  | r :: rest, acc =>
    if srowAxiomFound r ∧ acc.contains (srowByAddress r) = false then
      if maxA ≤ (acc ++ [srowByAddress r]).length then acc ++ [srowByAddress r]
      else scrapeRowsLoop maxA rest (acc ++ [srowByAddress r])
    else scrapeRowsLoop maxA rest acc

/-- The pagination loop of `extract_table_data_task`
(src/solscan_scraper.py lines 36-112): bounded by the 50-page safety limit
(the fuel argument); an exhausted page list models the absent/disabled next
button and the table-timeout breaks. -/
def scrapePagesLoop (maxA : Nat) : Nat → List (List SRow) → List String → List String
  | 0, _, acc => acc
  | _ + 1, [], acc => acc
  | n + 1, rows :: rest, acc =>
    if acc.length < maxA then
      if (scrapeRowsLoop maxA rows acc).length < maxA then
        scrapePagesLoop maxA n rest (scrapeRowsLoop maxA rows acc)
      else scrapeRowsLoop maxA rows acc
    else acc

/-- Embedding of `extract_table_data_task`
(src/solscan_scraper.py lines 13-127); the reporting-only fields
(`pages_processed`, `timestamp`) are not modelled.  Unlike
`get_program_accounts`, the address list is not truncated (its length is
bounded by the loop itself). -/
def extract_table_data (programId : String) (maxA : Nat) (pages : List (List SRow)) :
    AddrResult :=
  let addrs := scrapePagesLoop maxA 50 pages []
  { programId := programId
    uniqueAddresses := addrs
    totalFound := addrs.length
    targetCount := maxA }

/-! ## Scrape data source: address transactions (C9) -/

/-- One row of an address page's transaction table, reduced to the fields
`extract_address_transactions_task` reads. -/
structure TxRow where
  cellCount : Nat
  sigHref : String
  blockText : String
  timeText : String
  instructionsText : String
  byHref : String
  valueText : String
  feeText : String
  programLinks : List String
  outerHtml : String
deriving DecidableEq

/-- Embedding of `check_transaction_failed`
(src/solscan_scraper.py lines 647-664): any failure-indicator keyword
occurs in the lowercased row markup. -/
def check_transaction_failed (html : String) : Bool :=
  ["failed", "error", "fail", "cancelled"].any fun ind =>
    isInfixB ind.data (html.data.map Char.toLower)

/-- The instant denoted by a `parse_time_text` result at evaluation instant
`nowSec`; `absOracle` supplies the instant of an absolute-format match
(computed by `strptime` in the source, never exercised by the claims). -/
def timeParseValue (nowSec absOracle : Int) : TimeParseResult → Int
  | .agoSeconds n => nowSec - n
  | .absoluteMatch => absOracle
  | .assumeNowWarn => nowSec
  | .assumeNowError => nowSec

/-- Instruction labels of a scraped row
(src/solscan_scraper.py lines 264-265): split the cell text on newlines,
strip, and drop empties and bare `"+"`. -/
def scrapeInstructions (text : String) : List String :=
  ((splitOnNl text.data).map trimChars).filterMap fun cs =>
    if cs.isEmpty || cs = ['+'] then none else some (String.mk cs)

/-- A canonical transaction produced by the scrape source
(src/solscan_scraper.py lines 293-303); `timestamp` is the resolved row
instant in Unix seconds (the source stores its ISO-8601 rendering). -/
structure ScrapeTx where
  signature : String
  block : String
  time : String
  timestamp : Int
  instructions : List String
  byAddr : String
  value : String
  fee : String
  page : Nat
deriving DecidableEq

/-- The single program ID checked by the row loop of
`extract_address_transactions_task` (src/solscan_scraper.py line 285):
only the first of the two configured Axiom program IDs. -/
def FIRST_AXIOM_ID : String := "AxiomfHaWDemCFBLBayqnEnNwE6b7B2Qz3UmzMpgbMG6"

/-- Outcome of one row of the transaction-row loop. -/
inductive RowStep where
  | stopOld
  | skipRow
  | accept (tx : ScrapeTx)
deriving DecidableEq

/-- Embedding of the row body of `extract_address_transactions_task`
(src/solscan_scraper.py lines 235-312): rows with fewer than 9 cells are
skipped; a row older than the cutoff stops the scrape; otherwise the row is
accepted exactly when a program link contains the first Axiom program ID
and the row markup carries no failure indicator.  The "By" address is
taken from the cell's link (the tooltip/truncated-text fallbacks of
`extract_full_address_from_by_field` apply only when no link exists and
are not modelled). -/
def processRow (nowSec absOracle cutoff : Int) (page : Nat) (r : TxRow) : RowStep :=
  if r.cellCount < 9 then .skipRow
  else
    let t := timeParseValue nowSec absOracle (parse_time_text r.timeText)
    if t < cutoff then .stopOld
    else
      let axiomFound := r.programLinks.any fun href => isInfixB FIRST_AXIOM_ID.data href.data
      if axiomFound ∧ check_transaction_failed r.outerHtml = false then
        .accept { signature := lastSeg "/tx/" r.sigHref
                  block := r.blockText
                  time := r.timeText
                  timestamp := t
                  instructions := scrapeInstructions r.instructionsText
                  byAddr := lastSeg "/account/" r.byHref
                  value := r.valueText
                  fee := r.feeText
                  page := page }
      else .skipRow

/-- The row loop of `extract_address_transactions_task` over one page. -/
def scrapeTxRowsLoop (nowSec absOracle cutoff : Int) (page : Nat) :
    List TxRow → List ScrapeTx
  | [] => []
  | r :: rest =>
    match processRow nowSec absOracle cutoff page r with
    | .stopOld => []
    | .skipRow => scrapeTxRowsLoop nowSec absOracle cutoff page rest
    | .accept tx => tx :: scrapeTxRowsLoop nowSec absOracle cutoff page rest

/-- Row acceptance as the specification words it, for comparison with
`processRow`: a link to one of the two configured Axiom program IDs is
present and the row is not flagged failed. -/
def specRowAccepted (r : TxRow) : Bool :=
  (r.programLinks.any fun href => AXIOM_PROGRAM_ID.any fun pid => isInfixB pid.data href.data)
    && !(check_transaction_failed r.outerHtml)

/-- The result shape of `extract_address_transactions_task`
(src/solscan_scraper.py lines 374-381); its `max_pages` limit is 1, so the
task scrapes a single page of rows. -/
structure ScrapeTxResult where
  addressId : String
  transactions : List ScrapeTx
  totalFound : Nat
  pagesProcessed : Nat
  daysScraped : Nat
deriving DecidableEq

/-- Embedding of `extract_address_transactions_task`
(src/solscan_scraper.py lines 180-387) on its single page of rows. -/
def extract_address_transactions (nowSec absOracle : Int) (addressId : String)
    (days : Nat) (rows : List TxRow) : ScrapeTxResult :=
  let cutoff := nowSec - (days : Int) * 86400
  let txs := scrapeTxRowsLoop nowSec absOracle cutoff 1 rows
  { addressId := addressId
    transactions := txs
    totalFound := txs.length
    pagesProcessed := 1
    daysScraped := days }

/-! ## Scrape data source: orchestration (C3, scrape side) -/

/-- A balance-change row scraped by `extract_balance_changes_task`
(src/solscan_scraper.py lines 479-487); all fields are scraped text. -/
structure ScrapeBalanceChange where
  signature : String
  block : String
  time : String
  amount : String
  postBalance : String
  tokenName : String
  tokenAddress : String
deriving DecidableEq

/-- The result shape of `extract_balance_changes_task`
(src/solscan_scraper.py lines 568-575). -/
structure ScrapeBcResult where
  balanceChanges : List (String × List ScrapeBalanceChange)
  signaturesFound : Nat
  pagesProcessed : Nat
deriving DecidableEq

/-- The combined result of `scrape_address_transactions`
(src/solscan_scraper.py lines 716-728). -/
structure ScrapeFinalResult where
  addressId : String
  daysScraped : Nat
  transactions : List ScrapeTx
  balanceChanges : List (String × List ScrapeBalanceChange)
  totalTransactions : Nat
  balanceChangesFound : Nat
deriving DecidableEq

/-- Embedding of the control flow of `scrape_address_transactions`
(src/solscan_scraper.py lines 666-749).  Each task argument is the outcome
of one `execute_task` call: `Except.error` models a raised exception
(session-setup failure, caller timeout, or any other error), which the
surrounding `try` converts to `None`; an empty transaction list also
returns `None`. -/
def scrape_address_transactions (addressId : String) (days : Nat)
    (txTask : Except Unit ScrapeTxResult) (bcTask : Except Unit ScrapeBcResult) :
    Option ScrapeFinalResult :=
  match txTask with
  | .error _ => none
  | .ok tr =>
    if tr.transactions.isEmpty then none
    else
      match bcTask with
      | .error _ => none
      | .ok bc =>
        some { addressId := addressId
               daysScraped := days
               transactions := tr.transactions
               balanceChanges := bc.balanceChanges
               totalTransactions := tr.totalFound
               balanceChangesFound := bc.signaturesFound }

/-! ## SeleniumManager task engine (C8, C10) -/

/-- A `Task` after execution: `execute` stores either the function's result
or its captured exception and always sets the completion event
(src/selenium_manager.py lines 33-43).  Results are modelled as `Nat`,
exceptions as `String` messages. -/
structure TaskRec where
  completed : Bool
  result : Option Nat
  exception : Option String
deriving DecidableEq

/-- The worker's driver-setup failure message
(src/selenium_manager.py line 180). -/
def SETUP_ERROR_MSG : String := "Failed to setup driver"

/-- The `add_task` guard message (src/selenium_manager.py line 246). -/
def NOT_RUNNING_MSG : String := "SeleniumManager is not running. Call start() first."

/-- Embedding of `Task.execute` (src/selenium_manager.py lines 33-43):
the unit of work either returns a value or raises; both are captured and
the completion event is set in all cases. -/
def taskExecute : Except String Nat → TaskRec
  | .ok v => { completed := true, result := some v, exception := none }
  | .error e => { completed := true, result := none, exception := some e }

/-- Embedding of `Task.wait_for_completion`
(src/selenium_manager.py lines 45-52): a completed task re-raises its
captured exception or returns its result; an uncompleted wait times out. -/
def waitForCompletion (t : TaskRec) : Except String (Option Nat) :=
  if t.completed then
    match t.exception with
    | some e => .error e
    | none => .ok t.result
  else .error "TimeoutError"

/-- Embedding of `SeleniumManager._worker_thread_func`
(src/selenium_manager.py lines 165-196) draining a queue prefix: `none` is
the poison pill that stops the worker; `setupOk` is whether `_setup_driver`
succeeds when no driver exists; a setup failure marks the task failed and
the worker continues with the next item. -/
def workerProcess (setupOk : Bool) : Option Unit → List (Option (Except String Nat)) → List TaskRec
  | _, [] => []
  | _, none :: _ => []
  | driver, some outcome :: rest =>
    match driver with
    | some _ => taskExecute outcome :: workerProcess setupOk (some ()) rest
    | none =>
      if setupOk then taskExecute outcome :: workerProcess setupOk (some ()) rest
      else
        { completed := true, result := none, exception := some SETUP_ERROR_MSG } ::
          workerProcess setupOk none rest

/-- The mutable state of a `SeleniumManager` relevant to task submission:
the running flag and the queued items (`none` is the poison pill). -/
structure MgrState where
  running : Bool
  queue : List (Option (Except String Nat))

/-- Embedding of `SeleniumManager.start`
(src/selenium_manager.py lines 198-212): idempotent. -/
def mgrStart (st : MgrState) : MgrState :=
  if st.running then st else { st with running := true }

/-- Embedding of `SeleniumManager.stop`
(src/selenium_manager.py lines 214-241): idempotent; enqueues the poison
pill to unblock the worker. -/
def mgrStop (st : MgrState) : MgrState :=
  if st.running then { running := false, queue := st.queue ++ [none] } else st

/-- Embedding of `SeleniumManager.add_task`
(src/selenium_manager.py lines 243-251): when the manager is not running it
raises `RuntimeError` before creating a `Task` or touching the queue; the
returned state is the (unchanged in that case) manager state. -/
def add_task (st : MgrState) (work : Except String Nat) : MgrState × Except String Unit :=
  if st.running then ({ st with queue := st.queue ++ [some work] }, .ok ())
  else (st, .error NOT_RUNNING_MSG)

/-- Embedding of `SeleniumManager.execute_task`
(src/selenium_manager.py lines 253-256): calls `add_task` and then waits;
the `add_task` failure propagates to the caller before any wait. -/
def execute_task (st : MgrState) (work : Except String Nat) : MgrState × Except String Unit :=
  let r := add_task st work
  match r.2 with
  | .error e => (r.1, .error e)
  | .ok _ => r

/-! ## Concrete sample inputs used by witnesses and counterexamples -/

/-- A token-name oracle that knows no names, like `_get_token_name` when
every metadata fetch fails. -/
def resolveUnknown : String → String := fun _ => "Unknown Token"

/-- Pre-balance entry: address "A" at index 0 held 100 of mint "X". -/
def utbPreX : UiTokenBalance :=
  { accountIndex := 0, owner := "A", mint := "X", uiAmount := 100 }

/-- Post-balance entry: address "A" at index 0 holds 150 of mint "X". -/
def utbPostX : UiTokenBalance :=
  { accountIndex := 0, owner := "A", mint := "X", uiAmount := 150 }

/-- Post-balance entry equal to the pre balance (mint "X" stays at 100). -/
def utbPostXEq : UiTokenBalance :=
  { accountIndex := 0, owner := "A", mint := "X", uiAmount := 100 }

/-- A transaction in which address "A" gains 50 of mint "X" and its SOL
balance does not move. -/
def txTokenSample : TxValue :=
  { slot := 2
    blockTime := none
    accountKeys := ["A"]
    signatures := ["sig1"]
    numInstructions := 0
    meta := some
      { fee := 5000
        preBalances := [1000000000]
        postBalances := [1000000000]
        preTokenBalances := [utbPreX]
        postTokenBalances := [utbPostX]
        logMessages := [] } }

/-- A transaction in which mint "X" has equal pre and post balances (100)
and the SOL balance also does not move. -/
def txEqualSample : TxValue :=
  { slot := 2
    blockTime := none
    accountKeys := ["A"]
    signatures := ["sig1"]
    numInstructions := 0
    meta := some
      { fee := 5000
        preBalances := [1000000000]
        postBalances := [1000000000]
        preTokenBalances := [utbPreX]
        postTokenBalances := [utbPostXEq]
        logMessages := [] } }

/-- The single record `_extract_balance_changes` emits for `txTokenSample`. -/
def sampleChange : BalanceChangeRec :=
  { signature := "sig1", block := "2", time := "Unknown",
    amount := qSub 150 100, postBalance := 150,
    tokenName := "Unknown Token", tokenAddress := "X" }

/-- A transaction whose largest SOL delta is zero (pre = post = 100
lamports) with a 5000-lamport fee. -/
def txZeroValue : TxValue :=
  { slot := 3
    blockTime := none
    accountKeys := ["A"]
    signatures := ["s"]
    numInstructions := 0
    meta := some
      { fee := 5000
        preBalances := [100]
        postBalances := [100]
        preTokenBalances := []
        postTokenBalances := []
        logMessages := [] } }

/-- Signature info for the zero-value transaction. -/
def sigInfoZero : SigInfo :=
  { signature := "s", slot := 3, blockTime := none, err := false }

/-- A recent, non-failed signature. -/
def sigInfoOne : SigInfo :=
  { signature := "sig1", slot := 2, blockTime := none, err := false }

/-- A transaction that does not involve any Axiom program. -/
def txNoAx : TxValue :=
  { slot := 2
    blockTime := none
    accountKeys := ["B"]
    signatures := ["sig1"]
    numInstructions := 0
    meta := none }

/-- A transaction lookup that always finds `txNoAx`. -/
def lookupNoAx : String → Option TxValue := fun _ => some txNoAx

/-- A scraped discovery row whose "By" link points at the first Axiom
program ID itself, in a row whose program links also reference it. -/
def srowProgramSelf : SRow :=
  { byHref := "https://solscan.io/account/AxiomfHaWDemCFBLBayqnEnNwE6b7B2Qz3UmzMpgbMG6"
    programLinks := ["https://solscan.io/account/AxiomfHaWDemCFBLBayqnEnNwE6b7B2Qz3UmzMpgbMG6"] }

/-- A recent, non-failed transaction row whose only program link references
the second configured Axiom program ID. -/
def rowSecondId : TxRow :=
  { cellCount := 9
    sigHref := "https://solscan.io/tx/sig9"
    blockText := "1"
    timeText := "just now"
    instructionsText := ""
    byHref := "https://solscan.io/account/B9"
    valueText := "0.1"
    feeText := "0.000005"
    programLinks := ["https://solscan.io/account/AxiomxSitiyXyPjKgJ9XSrdhsydtZsskZTEDam3PxKcC"]
    outerHtml := "<tr><td>ok</td></tr>" }

/-- A manager state that has been stopped. -/
def stoppedState : MgrState := mgrStop { running := true, queue := [] }

/-! ## Bridge lemmas for the exact rational helpers -/

/-- Bridge: `qSub` agrees with rational subtraction. -/
theorem qSub_eq (a b : ℚ) : qSub a b = a - b := by
  unfold qSub
  conv_rhs => rw [← Rat.num_divInt_den a, ← Rat.num_divInt_den b]
  rw [Rat.divInt_sub_divInt _ _ (by exact_mod_cast a.den_ne_zero)
    (by exact_mod_cast b.den_ne_zero)]

/-- Bridge: `qLtB` agrees with the rational order. -/
theorem qLtB_iff (a b : ℚ) : qLtB a b = true ↔ a < b := by
  simp [qLtB, Rat.lt_def]

/-! ## Shape of `format6` output -/

/-- Digit characters are never a decimal point. -/
theorem digitChar_ne_dot : ∀ d < 10, Nat.digitChar d ≠ '.' := by decide

/-- No output character of `natDigitsAux` is a decimal point. -/
theorem natDigitsAux_ne_dot (fuel : Nat) :
    ∀ (n : Nat), ∀ c ∈ natDigitsAux fuel n, c ≠ '.' := by
  induction fuel with
  | zero => intro n c hc; simp [natDigitsAux] at hc
  | succ f ih =>
    intro n c hc
    unfold natDigitsAux at hc
    by_cases h : n = 0
    · simp [h] at hc
    · simp only [h, if_false, List.mem_append, List.mem_singleton] at hc
      rcases hc with h1 | h1
      · exact ih _ c h1
      · subst h1
        exact digitChar_ne_dot _ (Nat.mod_lt _ (by norm_num))

/-- No character of `natDigitList` is a decimal point. -/
theorem natDigitList_ne_dot (n : Nat) : ∀ c ∈ natDigitList n, c ≠ '.' := by
  intro c hc
  unfold natDigitList at hc
  by_cases h : n = 0
  · simp [h] at hc
    subst hc
    decide
  · simp only [h, if_false] at hc
    exact natDigitsAux_ne_dot n n c hc

/-- No character of `sixFrac` is a decimal point. -/
theorem sixFrac_ne_dot (n : Nat) : ∀ c ∈ sixFrac n, c ≠ '.' := by
  intro c hc
  simp only [sixFrac, List.mem_cons, List.mem_singleton, List.not_mem_nil, or_false] at hc
  rcases hc with h | h | h | h | h | h <;> subst h <;>
    exact digitChar_ne_dot _ (Nat.mod_lt _ (by norm_num))

/-- The length of `sixFrac` is six. -/
theorem sixFrac_length (n : Nat) : (sixFrac n).length = 6 := rfl

/-- Dropping the dot-free front of a dotted character list lands on the dot. -/
theorem dropWhile_append_dot (l1 l2 : List Char) (h : ∀ c ∈ l1, c ≠ '.') :
    (l1 ++ '.' :: l2).dropWhile (fun c => c ≠ '.') = '.' :: l2 := by
  induction l1 with
  | nil => simp [List.dropWhile]
  | cons a rest ih =>
    have ha : a ≠ '.' := h a (List.mem_cons_self a rest)
    have ih' := ih fun c hc => h c (List.mem_cons_of_mem a hc)
    simpa [List.dropWhile_cons, ha, decide_not] using ih'

/-- A dotted character list with dot-free surroundings has exactly one dot. -/
theorem count_append_dot (l1 l2 : List Char) (h1 : ∀ c ∈ l1, c ≠ '.')
    (h2 : ∀ c ∈ l2, c ≠ '.') : (l1 ++ '.' :: l2).count '.' = 1 := by
  have e1 : l1.count '.' = 0 := List.count_eq_zero.2 fun hmem => h1 _ hmem rfl
  have e2 : l2.count '.' = 0 := List.count_eq_zero.2 fun hmem => h2 _ hmem rfl
  simp [List.count_append, List.count_cons, e1, e2]

/-- Every `format6` output has exactly six decimal places. -/
theorem format6_sixDecimals (q : ℚ) : sixDecimalsB (format6 q) = true := by
  unfold format6 sixDecimalsB
  set m := roundHalfEvenNat (q.num.natAbs * 1000000) q.den with hm
  set sign : List Char := if q.num < 0 then ['-'] else [] with hsign
  have hfront : ∀ c ∈ sign ++ natDigitList (m / 1000000), c ≠ '.' := by
    intro c hc
    rcases List.mem_append.1 hc with h | h
    · by_cases hq : q.num < 0
      · rw [hsign] at h
        simp only [hq, if_true, List.mem_singleton] at h
        subst h
        decide
      · rw [hsign] at h
        simp [hq] at h
    · exact natDigitList_ne_dot _ c h
  have hdata :
      (String.mk (sign ++ natDigitList (m / 1000000) ++ '.' :: sixFrac (m % 1000000))).data =
        (sign ++ natDigitList (m / 1000000)) ++ '.' :: sixFrac (m % 1000000) := by
    simp
  rw [hdata, count_append_dot _ _ hfront (sixFrac_ne_dot _),
    dropWhile_append_dot _ _ hfront]
  simp [sixFrac]

/-! ## Claim C1 -/

/-- C1 counterexample: with no alternate endpoint configured and every
attempt failing, `_retry_request` with `max_retries = 3` issues only the
initial request and stops at the first retry, instead of continuing for the
remaining retries (which would issue 4 requests, as it does when an
alternate endpoint exists). -/
theorem retry_no_switch_counterexample :
    retry_request false (fun _ => none) 3 = (none, 1) ∧
    retry_request true (fun _ => none) 3 = (none, 4) ∧
    (retry_request false (fun _ => none) 3).2 ≠ 4 := by decide

/-- C1 (amended): when no alternate endpoint is configured and the initial
attempt fails, `_retry_request` breaks out on the first retry and returns
`None` after having issued exactly one request, for every retry budget. -/
theorem retry_no_switch_gives_up (respond : Nat → Option Nat) (m : Nat)
    (h : respond 0 = none) : retry_request false respond m = (none, 1) := by
  cases m with
  | zero => simp [retry_request, retryAttemptLoop, h]
  | succ k => simp [retry_request, retryAttemptLoop, h]

/-- Witness for `retry_no_switch_gives_up` at the all-failing responder and
a retry budget of 3. -/
theorem retry_no_switch_gives_up_witness :
    (fun _ => (none : Option Nat)) 0 = none ∧
    retry_request false (fun _ => none) 3 = (none, 1) :=
  ⟨rfl, retry_no_switch_gives_up (fun _ => none) 3 rfl⟩

/-! ## Claim C2 -/

/-- C2: the time-text parser does not recognize the relative form
`"2 hours ago"` — the hour branch tests only for the substring `"hr"`,
which `"hours"` does not contain — so the input falls through every
relative branch and every absolute format and returns `now` with a warning,
instead of `now - 2h` as the function's own docstring promises
(`"2 hours ago"` is its example).  The abbreviated form `"2 hrs ago"` and
the other relative units do work, `"just now"` evaluates to `now` (via the
same warning path, since it lacks the substring `"ago"`), and an
unrecognized string returns `now` with a warning. -/
theorem parse_time_text_hours_gap :
    parse_time_text "2 hours ago" = .assumeNowWarn ∧
    parse_time_text "2 hours ago" ≠ .agoSeconds 7200 ∧
    parse_time_text "1 hour ago" = .assumeNowWarn ∧
    parse_time_text "2 hrs ago" = .agoSeconds 7200 ∧
    parse_time_text "just now" = .assumeNowWarn ∧
    parse_time_text "1 min ago" = .agoSeconds 60 ∧
    parse_time_text "3 days ago" = .agoSeconds 259200 ∧
    parse_time_text "gibberish" = .assumeNowWarn := by decide

/-! ## Claim C7 -/

/-- C7 counterexample: a transaction whose largest SOL delta is zero
renders its `value` as the bare string `"0"`, which has no decimal places,
while the fee is still rendered with six decimal places. -/
theorem rpc_zero_value_counterexample :
    (parse_transaction 0 txZeroValue sigInfoZero).value = "0" ∧
    sixDecimalsB "0" = false ∧
    (parse_transaction 0 txZeroValue sigInfoZero).fee = "0.000005" := by decide

/-- C7 (amended): for every RPC transaction, the `fee` field is always a
fixed-precision decimal string with exactly 6 decimal places; the `value`
field is such a string whenever the largest absolute SOL delta is non-zero,
but a zero value is rendered as the bare string `"0"` instead. -/
theorem rpc_value_fee_decimals (nowSec : Int) (tx : TxValue) (s : SigInfo) :
    sixDecimalsB (parse_transaction nowSec tx s).fee = true ∧
    ((parse_transaction nowSec tx s).value = "0" ∨
      sixDecimalsB (parse_transaction nowSec tx s).value = true) ∧
    ((parse_transaction nowSec tx s).value = "0" ↔ extract_transaction_value tx = 0) := by
  have hfee : ∃ r : ℚ, (parse_transaction nowSec tx s).fee = format6 r := by
    obtain ⟨slot, bt, keys, sigs, ni, mta⟩ := tx
    cases mta <;> exact ⟨_, rfl⟩
  have hval : (parse_transaction nowSec tx s).value =
      (if extract_transaction_value tx ≠ 0 then format6 (extract_transaction_value tx)
       else "0") := rfl
  refine ⟨?_, ?_, ?_⟩
  · obtain ⟨r, hr⟩ := hfee
    rw [hr]
    exact format6_sixDecimals r
  · rw [hval]
    by_cases h : extract_transaction_value tx = 0
    · simp [h]
    · simp only [h, ne_eq, not_false_eq_true, if_true]
      exact Or.inr (format6_sixDecimals _)
  · rw [hval]
    constructor
    · intro hzero
      by_contra h
      simp only [ne_eq, h, not_false_eq_true, if_true] at hzero
      have := format6_sixDecimals (extract_transaction_value tx)
      rw [hzero] at this
      exact absurd this (by decide)
    · intro h
      simp [h]

/-! ## Claim C8 -/

/-- C8: a unit of work that raises does not crash the worker — its
exception is captured (`Task.execute`), the completion event is always set,
`wait_for_completion` re-raises exactly the captured exception to the
submitter, every submitted unit is still executed in order, and for the
concrete sequence [ok, raises, ok] all three complete with the third
succeeding. -/
theorem task_engine_fault_isolation :
    (∀ ts : List (Except String Nat),
      workerProcess true (some ()) (ts.map some) = ts.map taskExecute) ∧
    (∀ ts : List (Except String Nat),
      ((ts.map taskExecute).all fun r => r.completed) = true) ∧
    (∀ outcome : Except String Nat,
      waitForCompletion (taskExecute outcome) =
        (match outcome with
         | .ok v => .ok (some v)
         | .error e => .error e)) ∧
    workerProcess true (some ()) [some (.ok 1), some (.error "boom"), some (.ok 3)] =
      [{ completed := true, result := some 1, exception := none },
       { completed := true, result := none, exception := some "boom" },
       { completed := true, result := some 3, exception := none }] := by
  refine ⟨?_, ?_, ?_, by decide⟩
  · intro ts
    induction ts with
    | nil => rfl
    | cons t rest ih => simp [workerProcess, ih]
  · intro ts
    induction ts with
    | nil => rfl
    | cons t rest ih =>
      simp only [List.map_cons, List.all_cons, ih, Bool.and_true]
      cases t <;> rfl
  · intro outcome
    cases outcome <;> rfl

/-! ## Claim C10 -/

/-- C10: submitting work to a manager that is not running raises
`RuntimeError` and leaves the queue unchanged (no task is created), both
through `add_task` and through `execute_task`. -/
theorem add_task_requires_running (st : MgrState) (work : Except String Nat)
    (h : st.running = false) :
    add_task st work = (st, .error NOT_RUNNING_MSG) ∧
    execute_task st work = (st, .error NOT_RUNNING_MSG) := by
  constructor <;> simp [add_task, execute_task, h]

/-- Witness for `add_task_requires_running` at a freshly stopped manager. -/
theorem add_task_requires_running_witness :
    stoppedState.running = false ∧
    add_task stoppedState (.ok 0) = (stoppedState, .error NOT_RUNNING_MSG) ∧
    execute_task stoppedState (.ok 0) = (stoppedState, .error NOT_RUNNING_MSG) :=
  ⟨rfl, (add_task_requires_running stoppedState (.ok 0) rfl).1,
    (add_task_requires_running stoppedState (.ok 0) rfl).2⟩

/-! ## Merge lemmas for the token-balance map (C5, C6) -/

/-- Looking up the key just written by `setPre` yields its `(amt, 0)` value. -/
theorem lookupMint_setPre_self (m : String) (a : ℚ) (l : List (String × ℚ × ℚ)) :
    lookupMint m (setPre m a l) = some (a, 0) := by
  induction l with
  | nil => simp [setPre, lookupMint]
  | cons e rest ih =>
    obtain ⟨k, pq⟩ := e
    by_cases h : k = m <;> simp [setPre, lookupMint, h, ih]

/-- `setPre` on a different key leaves a lookup unchanged. -/
theorem lookupMint_setPre_ne (k m : String) (hne : k ≠ m) (a : ℚ)
    (l : List (String × ℚ × ℚ)) : lookupMint k (setPre m a l) = lookupMint k l := by
  induction l with
  | nil => simp [setPre, lookupMint, Ne.symm hne]
  | cons e rest ih =>
    obtain ⟨k', pq⟩ := e
    by_cases h : k' = m
    · have hkk : k' ≠ k := by
        rw [h]
        exact Ne.symm hne
      simp [setPre, lookupMint, h, hkk, Ne.symm hne]
    · by_cases h2 : k' = k <;> simp [setPre, lookupMint, h, h2, hne, ih]

/-- `setPost` on a different key leaves a lookup unchanged. -/
theorem lookupMint_setPost_ne (k m : String) (hne : k ≠ m) (a : ℚ)
    (l : List (String × ℚ × ℚ)) : lookupMint k (setPost m a l) = lookupMint k l := by
  induction l with
  | nil => simp [setPost, lookupMint, Ne.symm hne]
  | cons e rest ih =>
    obtain ⟨k', pq⟩ := e
    by_cases h : k' = m
    · have hkk : k' ≠ k := by
        rw [h]
        exact Ne.symm hne
      simp [setPost, lookupMint, h, hkk, Ne.symm hne]
    · by_cases h2 : k' = k <;> simp [setPost, lookupMint, h, h2, hne, ih]

/-- `setPost` on an absent key inserts `(0, amt)`. -/
theorem lookupMint_setPost_self_none (m : String) (a : ℚ) (l : List (String × ℚ × ℚ))
    (h : lookupMint m l = none) : lookupMint m (setPost m a l) = some (0, a) := by
  induction l with
  | nil => simp [setPost, lookupMint]
  | cons e rest ih =>
    obtain ⟨k, pq⟩ := e
    by_cases hk : k = m
    · simp [lookupMint, hk] at h
    · simp only [lookupMint, hk, if_false] at h
      simp [setPost, lookupMint, hk, ih h]

/-- `setPost` on a present key keeps its `pre` and replaces its `post`. -/
theorem lookupMint_setPost_self_some (m : String) (a : ℚ) (pq : ℚ × ℚ)
    (l : List (String × ℚ × ℚ)) (h : lookupMint m l = some pq) :
    lookupMint m (setPost m a l) = some (pq.1, a) := by
  induction l with
  | nil => simp [lookupMint] at h
  | cons e rest ih =>
    obtain ⟨k, pq'⟩ := e
    by_cases hk : k = m
    · subst hk
      have hpq : pq' = pq := by
        simpa [lookupMint] using h
      subst hpq
      simp [setPost, lookupMint]
    · simp only [lookupMint, hk, if_false] at h
      simp [setPost, lookupMint, hk, ih h]

/-- A mint absent from the scanned entries is untouched by the pre loop. -/
theorem lookupMint_applyPre_notMem (m : String) (l : List UiTokenBalance)
    (acc : List (String × ℚ × ℚ)) (h : m ∉ l.map UiTokenBalance.mint) :
    lookupMint m (applyPre l acc) = lookupMint m acc := by
  induction l generalizing acc with
  | nil => rfl
  | cons b rest ih =>
    simp only [List.map_cons, List.mem_cons, not_or] at h
    rw [applyPre, ih _ h.2, lookupMint_setPre_ne _ _ h.1]

/-- A mint absent from the scanned entries is untouched by the post loop. -/
theorem lookupMint_applyPost_notMem (m : String) (l : List UiTokenBalance)
    (acc : List (String × ℚ × ℚ)) (h : m ∉ l.map UiTokenBalance.mint) :
    lookupMint m (applyPost l acc) = lookupMint m acc := by
  induction l generalizing acc with
  | nil => rfl
  | cons b rest ih =>
    simp only [List.map_cons, List.mem_cons, not_or] at h
    rw [applyPost, ih _ h.2, lookupMint_setPost_ne _ _ h.1]

/-- After the pre loop, every mint it scanned (or that already carried a
zero `post`) maps to a value with `post = 0`. -/
theorem applyPre_zero_post (m : String) (l : List UiTokenBalance)
    (acc : List (String × ℚ × ℚ))
    (h : m ∈ l.map UiTokenBalance.mint ∨ ∃ a, lookupMint m acc = some (a, 0)) :
    ∃ a, lookupMint m (applyPre l acc) = some (a, 0) := by
  induction l generalizing acc with
  | nil =>
    rcases h with h | h
    · simp at h
    · exact h
  | cons b rest ih =>
    rw [applyPre]
    by_cases hbm : b.mint = m
    · refine ih _ (Or.inr ⟨b.uiAmount, ?_⟩)
      rw [← hbm]
      exact lookupMint_setPre_self b.mint b.uiAmount acc
    · have hne : m ≠ b.mint := fun e => hbm e.symm
      refine ih _ ?_
      rcases h with h | h
      · simp only [List.map_cons, List.mem_cons] at h
        rcases h with h | h
        · exact absurd h hne
        · exact Or.inl h
      · obtain ⟨a, ha⟩ := h
        exact Or.inr ⟨a, by rw [lookupMint_setPre_ne _ _ hne, ha]⟩

/-- After the post loop, every mint it scanned maps to a value with
`pre = 0`, provided the mint was absent or already carried `pre = 0`. -/
theorem applyPost_zero_pre (m : String) (l : List UiTokenBalance)
    (acc : List (String × ℚ × ℚ))
    (hP : lookupMint m acc = none ∨ ∃ q, lookupMint m acc = some (0, q))
    (h : m ∈ l.map UiTokenBalance.mint ∨ ∃ q, lookupMint m acc = some (0, q)) :
    ∃ q, lookupMint m (applyPost l acc) = some (0, q) := by
  induction l generalizing acc with
  | nil =>
    rcases h with h | h
    · simp at h
    · exact h
  | cons b rest ih =>
    rw [applyPost]
    by_cases hbm : b.mint = m
    · subst hbm
      rcases hP with hnone | ⟨q, hq⟩
      · have hset := lookupMint_setPost_self_none b.mint b.uiAmount acc hnone
        exact ih _ (Or.inr ⟨b.uiAmount, hset⟩) (Or.inr ⟨b.uiAmount, hset⟩)
      · have hset := lookupMint_setPost_self_some b.mint b.uiAmount (0, q) acc hq
        exact ih _ (Or.inr ⟨b.uiAmount, hset⟩) (Or.inr ⟨b.uiAmount, hset⟩)
    · have hne : m ≠ b.mint := fun e => hbm e.symm
      have hkeep : lookupMint m (setPost b.mint b.uiAmount acc) = lookupMint m acc :=
        lookupMint_setPost_ne _ _ hne _ _
      refine ih _ (by rw [hkeep]; exact hP) ?_
      rcases h with h | h
      · simp only [List.map_cons, List.mem_cons] at h
        rcases h with h | h
        · exact absurd h hne
        · exact Or.inl h
      · exact Or.inr (by rw [hkeep]; exact h)

/-- A mint the post loop scanned (or that was already present) ends up
present. -/
theorem lookupMint_applyPost_isSome (m : String) (l : List UiTokenBalance)
    (acc : List (String × ℚ × ℚ))
    (h : m ∈ l.map UiTokenBalance.mint ∨ (lookupMint m acc).isSome) :
    (lookupMint m (applyPost l acc)).isSome := by
  induction l generalizing acc with
  | nil =>
    rcases h with h | h
    · simp at h
    · exact h
  | cons b rest ih =>
    rw [applyPost]
    by_cases hbm : b.mint = m
    · subst hbm
      cases hacc : lookupMint b.mint acc with
      | none =>
        refine ih _ (Or.inr ?_)
        rw [lookupMint_setPost_self_none b.mint b.uiAmount acc hacc]
        rfl
      | some pq =>
        refine ih _ (Or.inr ?_)
        rw [lookupMint_setPost_self_some b.mint b.uiAmount pq acc hacc]
        rfl
    · have hne : m ≠ b.mint := fun e => hbm e.symm
      have hkeep : lookupMint m (setPost b.mint b.uiAmount acc) = lookupMint m acc :=
        lookupMint_setPost_ne _ _ hne _ _
      refine ih _ ?_
      rcases h with h | h
      · simp only [List.map_cons, List.mem_cons] at h
        rcases h with h | h
        · exact absurd h hne
        · exact Or.inl h
      · exact Or.inr (by rw [hkeep]; exact h)

/-- Keys after `setPre`: unchanged when present, appended when new. -/
theorem keys_setPre (m : String) (a : ℚ) (l : List (String × ℚ × ℚ)) :
    (setPre m a l).map Prod.fst =
      (if m ∈ l.map Prod.fst then l.map Prod.fst else l.map Prod.fst ++ [m]) := by
  induction l with
  | nil => simp [setPre]
  | cons e rest ih =>
    obtain ⟨k, pq⟩ := e
    by_cases h : k = m
    · subst h
      simp [setPre]
    · have : ¬ m = k := fun e => h e.symm
      by_cases hmem : m ∈ rest.map Prod.fst <;>
        simp [setPre, h, this, hmem, ih]

/-- Keys after `setPost`: unchanged when present, appended when new. -/
theorem keys_setPost (m : String) (a : ℚ) (l : List (String × ℚ × ℚ)) :
    (setPost m a l).map Prod.fst =
      (if m ∈ l.map Prod.fst then l.map Prod.fst else l.map Prod.fst ++ [m]) := by
  induction l with
  | nil => simp [setPost]
  | cons e rest ih =>
    obtain ⟨k, pq⟩ := e
    by_cases h : k = m
    · subst h
      simp [setPost]
    · have : ¬ m = k := fun e => h e.symm
      by_cases hmem : m ∈ rest.map Prod.fst <;>
        simp [setPost, h, this, hmem, ih]

/-- `setPre` preserves key distinctness. -/
theorem nodup_keys_setPre (m : String) (a : ℚ) (l : List (String × ℚ × ℚ))
    (h : (l.map Prod.fst).Nodup) : ((setPre m a l).map Prod.fst).Nodup := by
  rw [keys_setPre]
  by_cases hmem : m ∈ l.map Prod.fst
  · simpa [hmem] using h
  · simp only [hmem, if_false]
    simp [List.nodup_append, h, hmem]

/-- `setPost` preserves key distinctness. -/
theorem nodup_keys_setPost (m : String) (a : ℚ) (l : List (String × ℚ × ℚ))
    (h : (l.map Prod.fst).Nodup) : ((setPost m a l).map Prod.fst).Nodup := by
  rw [keys_setPost]
  by_cases hmem : m ∈ l.map Prod.fst
  · simpa [hmem] using h
  · simp only [hmem, if_false]
    simp [List.nodup_append, h, hmem]

/-- The pre loop preserves key distinctness. -/
theorem nodup_keys_applyPre (l : List UiTokenBalance) (acc : List (String × ℚ × ℚ))
    (h : (acc.map Prod.fst).Nodup) : ((applyPre l acc).map Prod.fst).Nodup := by
  induction l generalizing acc with
  | nil => exact h
  | cons b rest ih => exact ih _ (nodup_keys_setPre _ _ _ h)

/-- The post loop preserves key distinctness. -/
theorem nodup_keys_applyPost (l : List UiTokenBalance) (acc : List (String × ℚ × ℚ))
    (h : (acc.map Prod.fst).Nodup) : ((applyPost l acc).map Prod.fst).Nodup := by
  induction l generalizing acc with
  | nil => exact h
  | cons b rest ih => exact ih _ (nodup_keys_setPost _ _ _ h)

/-- A successful lookup means the key is among the map's keys. -/
theorem mem_keys_of_lookupMint (m : String) (l : List (String × ℚ × ℚ))
    (pq : ℚ × ℚ) (h : lookupMint m l = some pq) : m ∈ l.map Prod.fst := by
  induction l with
  | nil => simp [lookupMint] at h
  | cons e rest ih =>
    obtain ⟨k, pq'⟩ := e
    by_cases hk : k = m
    · simp [hk]
    · simp only [lookupMint, hk, if_false] at h
      simp [ih h]

/-! ## Claims C5 and C6 -/

/-- Every record of the token emission loop has a non-zero delta. -/
theorem emitTokenChanges_nonzero (resolve : String → String)
    (sig blockStr timeText : String) (merged : List (String × ℚ × ℚ)) :
    ∀ c ∈ emitTokenChanges resolve sig blockStr timeText merged, c.amount ≠ 0 := by
  intro c hc
  unfold emitTokenChanges at hc
  rcases List.mem_filterMap.1 hc with ⟨e, _, hfe⟩
  by_cases hz : qSub e.2.2 e.2.1 = 0
  · simp [hz] at hfe
  · simp only [hz, if_false, Option.some.injEq] at hfe
    rw [← hfe]
    exact hz

/-- Every record of the SOL emission has a non-zero delta. -/
theorem emitSolChange_nonzero (sig blockStr timeText : String) (idx : Int)
    (preS postS : List Int) :
    ∀ c ∈ emitSolChange sig blockStr timeText idx preS postS, c.amount ≠ 0 := by
  intro c hc
  unfold emitSolChange at hc
  split at hc
  · split at hc
    · simp at hc
    · next hz =>
      simp only [List.mem_singleton] at hc
      rw [hc]
      exact hz
  · simp at hc

/-- C5: the RPC balance-change extraction emits a record only when its
signed delta (post minus pre) is non-zero — for token balances and for the
native SOL balance — and the synthetic transaction with equal pre and post
balances (100 = 100 for mint "X", equal SOL balances) produces no record at
all. -/
theorem balance_change_amount_nonzero (resolve : String → String) (nowSec : Int)
    (tx : TxValue) (address : String) :
    (∀ c ∈ extract_balance_changes resolve nowSec tx address, c.amount ≠ 0) ∧
    extract_balance_changes resolveUnknown 0 txEqualSample "A" = [] := by
  constructor
  · intro c hc
    simp only [extract_balance_changes, List.mem_append] at hc
    rcases hc with h | h
    · exact emitTokenChanges_nonzero _ _ _ _ _ c h
    · exact emitSolChange_nonzero _ _ _ _ _ _ c h
  · decide

/-- Witness for `balance_change_amount_nonzero`: the gain of 50 of mint "X"
in `txTokenSample` is emitted and its delta is non-zero. -/
theorem balance_change_amount_nonzero_witness :
    sampleChange ∈ extract_balance_changes resolveUnknown 0 txTokenSample "A" ∧
    sampleChange.amount ≠ 0 :=
  ⟨by decide,
    (balance_change_amount_nonzero resolveUnknown 0 txTokenSample "A").1
      sampleChange (by decide)⟩

/-- C6: in the token-balance merge, a mint appearing only among the
matching post-balance entries yields a map value with `pre = 0`; a mint
appearing only among the matching pre-balance entries yields `post = 0`;
and a mint appearing in both lists has exactly one entry in the merged map. -/
theorem merge_per_mint (idx : Int) (addr : String)
    (preL postL : List UiTokenBalance) (m : String) :
    (m ∈ matchedMints idx addr postL → m ∉ matchedMints idx addr preL →
      ∃ q, lookupMint m (mergeTokenBalances idx addr preL postL) = some (0, q)) ∧
    (m ∈ matchedMints idx addr preL → m ∉ matchedMints idx addr postL →
      ∃ p, lookupMint m (mergeTokenBalances idx addr preL postL) = some (p, 0)) ∧
    (m ∈ matchedMints idx addr preL → m ∈ matchedMints idx addr postL →
      ((mergeTokenBalances idx addr preL postL).map Prod.fst).count m = 1) := by
  refine ⟨?_, ?_, ?_⟩
  · intro hpost hpre
    simp only [matchedMints] at hpost hpre
    have hnone : lookupMint m (applyPre (preL.filter (matchesAddress idx addr)) []) = none := by
      rw [lookupMint_applyPre_notMem m _ _ hpre]
      rfl
    unfold mergeTokenBalances
    exact applyPost_zero_pre m _ _ (Or.inl hnone) (Or.inl hpost)
  · intro hpre hpost
    simp only [matchedMints] at hpost hpre
    obtain ⟨a, ha⟩ := applyPre_zero_post m (preL.filter (matchesAddress idx addr)) []
      (Or.inl hpre)
    refine ⟨a, ?_⟩
    unfold mergeTokenBalances
    rw [lookupMint_applyPost_notMem m _ _ hpost, ha]
  · intro hpre hpost
    simp only [matchedMints] at hpost hpre
    have hnodup : ((mergeTokenBalances idx addr preL postL).map Prod.fst).Nodup := by
      unfold mergeTokenBalances
      exact nodup_keys_applyPost _ _ (nodup_keys_applyPre _ _ (by simp))
    have hsome : (lookupMint m (mergeTokenBalances idx addr preL postL)).isSome := by
      unfold mergeTokenBalances
      exact lookupMint_applyPost_isSome m _ _ (Or.inl hpost)
    obtain ⟨pq, hpq⟩ := Option.isSome_iff_exists.1 hsome
    exact List.count_eq_one_of_mem hnodup (mem_keys_of_lookupMint m _ pq hpq)

/-- Witness for `merge_per_mint`: mint "X" appears only in the post list,
and the merged map gives it `pre = 0`. -/
theorem merge_per_mint_witness :
    "X" ∈ matchedMints 0 "A" [utbPostX] ∧
    "X" ∉ matchedMints 0 "A" ([] : List UiTokenBalance) ∧
    (∃ q, lookupMint "X" (mergeTokenBalances 0 "A" [] [utbPostX]) = some (0, q)) :=
  ⟨by decide, by decide,
    (merge_per_mint 0 "A" [] [utbPostX] "X").1 (by decide) (by decide)⟩

/-! ## Loop lemmas for address discovery (C4) -/

/-- `insertUnique` preserves a pointwise boolean invariant. -/
theorem insertUnique_all (P : String → Bool) (xs acc : List String)
    (hacc : acc.all P = true) (hxs : xs.all P = true) :
    (insertUnique acc xs).all P = true := by
  induction xs generalizing acc with
  | nil => exact hacc
  | cons x rest ih =>
    simp only [List.all_cons, Bool.and_eq_true] at hxs
    simp only [insertUnique, List.foldl_cons]
    have hstep : (if acc.contains x then acc else acc ++ [x]).all P = true := by
      by_cases hmem : acc.contains x = true
      · rw [if_pos hmem]
        exact hacc
      · rw [if_neg hmem]
        simp only [List.all_append, Bool.and_eq_true]
        exact ⟨hacc, by simp [hxs.1]⟩
    exact ih _ hstep hxs.2

/-- The extracted signer never equals an Axiom program ID. -/
theorem extract_addresses_not_program (tx : TxValue) :
    ((extract_addresses_from_transaction tx).all
      fun a => !(decide (a ∈ AXIOM_PROGRAM_IDS))) = true := by
  unfold extract_addresses_from_transaction
  cases hk : tx.accountKeys with
  | nil => rfl
  | cons k rest =>
    by_cases hcond : k ≠ "" ∧ k ∉ AXIOM_PROGRAM_IDS
    · simp [hcond, hcond.2]
    · simp [hcond]

/-- The per-signature loop preserves a pointwise boolean invariant that the
extraction guarantees. -/
theorem rpcSigsLoop_all (P : String → Bool)
    (hex : ∀ tx : TxValue, ((extract_addresses_from_transaction tx).all P) = true)
    (maxA : Nat) (l : List (Option TxValue)) (acc : List String)
    (hacc : acc.all P = true) : ((rpcSigsLoop maxA l acc).all P) = true := by
  induction l generalizing acc with
  | nil => exact hacc
  | cons t rest ih =>
    cases t with
    | none => exact ih _ hacc
    | some tx =>
      have hacc2 : (insertUnique acc (extract_addresses_from_transaction tx)).all P = true :=
        insertUnique_all P _ _ hacc (hex tx)
      unfold rpcSigsLoop
      by_cases hb : maxA ≤ (insertUnique acc (extract_addresses_from_transaction tx)).length
      · simpa [hb] using hacc2
      · simp only [hb, if_false]
        exact ih _ hacc2

/-- The pagination loop preserves the same invariant. -/
theorem rpcPagesLoop_all (P : String → Bool)
    (hex : ∀ tx : TxValue, ((extract_addresses_from_transaction tx).all P) = true)
    (maxA : Nat) (responses : List (Option (List (Option TxValue))))
    (acc : List String) (hacc : acc.all P = true) :
    ((rpcPagesLoop maxA responses acc).all P) = true := by
  induction responses generalizing acc with
  | nil => exact hacc
  | cons page rest ih =>
    unfold rpcPagesLoop
    by_cases hlen : acc.length < maxA
    · simp only [hlen, if_true]
      cases page with
      | none => exact hacc
      | some txs =>
        cases txs with
        | nil => exact hacc
        | cons t ts => exact ih _ (rpcSigsLoop_all P hex maxA _ _ hacc)
    · simpa [hlen] using hacc

/-- The scrape row loop never grows the set past the target count. -/
theorem scrapeRowsLoop_bound (maxA : Nat) (rows : List SRow) (acc : List String)
    (h : acc.length < maxA) : (scrapeRowsLoop maxA rows acc).length ≤ maxA := by
  induction rows generalizing acc with
  | nil => exact Nat.le_of_lt h
  | cons r rest ih =>
    unfold scrapeRowsLoop
    have hlen : (acc ++ [srowByAddress r]).length = acc.length + 1 := by simp
    split
    · split
      · omega
      · next hb =>
        refine ih _ ?_
        omega
    · exact ih _ h

/-- The scrape pagination loop keeps the set within the target count. -/
theorem scrapePagesLoop_bound (maxA fuel : Nat) (pages : List (List SRow))
    (acc : List String) (h : acc.length ≤ maxA) :
    (scrapePagesLoop maxA fuel pages acc).length ≤ maxA := by
  induction fuel generalizing pages acc with
  | zero => exact h
  | succ n ih =>
    cases pages with
    | nil => exact h
    | cons rows rest =>
      unfold scrapePagesLoop
      split
      · next hlen =>
        have hrows := scrapeRowsLoop_bound maxA rows acc hlen
        split
        · exact ih _ _ hrows
        · exact hrows
      · exact h

/-! ## Claim C4 -/

/-- C4 counterexample: the scrape discovery task has no program-ID filter
on the "By" column — a row whose "By" link is the first Axiom program ID
itself and whose program links reference it is collected, so the returned
address set contains a known program ID. -/
theorem scrape_includes_program_id :
    (extract_table_data "AxiomfHaWDemCFBLBayqnEnNwE6b7B2Qz3UmzMpgbMG6" 5
        [[srowProgramSelf]]).uniqueAddresses =
      ["AxiomfHaWDemCFBLBayqnEnNwE6b7B2Qz3UmzMpgbMG6"] ∧
    "AxiomfHaWDemCFBLBayqnEnNwE6b7B2Qz3UmzMpgbMG6" ∈ AXIOM_PROGRAM_ID ∧
    "AxiomfHaWDemCFBLBayqnEnNwE6b7B2Qz3UmzMpgbMG6" ∈ AXIOM_PROGRAM_IDS := by
  refine ⟨by decide, by decide, by decide⟩

/-- C4 (amended): both discovery paths return at most `max_addresses`
addresses; the RPC path never returns a known Axiom program ID, but the
scrape path does not filter program IDs from the "By" column. -/
theorem find_addresses_bound (programId : String) (maxA : Nat)
    (responses : List (Option (List (Option TxValue)))) (pages : List (List SRow)) :
    (get_program_accounts programId maxA responses).uniqueAddresses.length ≤ maxA ∧
    (((get_program_accounts programId maxA responses).uniqueAddresses.all
        fun a => !(decide (a ∈ AXIOM_PROGRAM_IDS))) = true) ∧
    (extract_table_data programId maxA pages).uniqueAddresses.length ≤ maxA := by
  refine ⟨?_, ?_, ?_⟩
  · show ((rpcPagesLoop maxA responses []).take maxA).length ≤ maxA
    rw [List.length_take]
    exact Nat.min_le_left _ _
  · show (((rpcPagesLoop maxA responses []).take maxA).all _) = true
    have hall := rpcPagesLoop_all _ extract_addresses_not_program maxA responses [] rfl
    rw [List.all_eq_true] at hall ⊢
    intro x hx
    exact hall x (List.take_subset _ _ hx)
  · show (scrapePagesLoop maxA 50 pages []).length ≤ maxA
    exact scrapePagesLoop_bound maxA 50 pages [] (Nat.zero_le _)

/-! ## Claim C3 -/

/-- The fetch result's `total_found` is the number of transactions. -/
theorem get_address_transactions_totalFound (resolve : String → String)
    (nowSec : Int) (address : String) (days : Nat)
    (sigResponse : Option (List SigInfo)) (txLookup : String → Option TxValue) :
    (get_address_transactions resolve nowSec address days sigResponse txLookup).totalFound =
      (get_address_transactions resolve nowSec address days sigResponse txLookup).transactions.length := by
  unfold get_address_transactions
  cases sigResponse with
  | none => rfl
  | some sigs => cases sigs <;> rfl

/-- `get_trading_history` returns `None` exactly on a zero count. -/
theorem get_trading_history_none_iff (r : TradingFetchResult) :
    get_trading_history r = none ↔ r.totalFound = 0 := by
  unfold get_trading_history
  split
  · next h => simp [h]
  · next h => simp [h]

/-- C3 counterexample: a failed signature fetch and a completed fetch that
found zero Axiom transactions produce the very same caller-visible value
`None` from `get_trading_history` — the two cases are indistinguishable. -/
theorem history_failure_indistinct :
    get_trading_history
        (get_address_transactions resolveUnknown 0 "A" 1 none lookupNoAx) = none ∧
    get_trading_history
        (get_address_transactions resolveUnknown 0 "A" 1 (some [sigInfoOne]) lookupNoAx) =
      none := by
  constructor <;> rfl

/-- C3 (amended): callers cannot distinguish "found zero results" from
"operation failed".  On the RPC path, `get_trading_history` returns `None`
exactly when the fetch produced zero transactions — and a failed fetch
surfaces as exactly that zero-transaction result.  On the scrape path,
`scrape_address_transactions` returns `None` on a raised task (session
setup, timeout or any other exception) and also on a completed scrape with
zero transactions. -/
theorem history_none_iff (resolve : String → String) (nowSec : Int)
    (address : String) (days : Nat) (sigResponse : Option (List SigInfo))
    (txLookup : String → Option TxValue) :
    (get_trading_history
        (get_address_transactions resolve nowSec address days sigResponse txLookup) = none ↔
      (get_address_transactions resolve nowSec address days sigResponse
        txLookup).transactions = []) ∧
    (∀ (addressId : String) (days2 : Nat) (tr : ScrapeTxResult) (bc : ScrapeBcResult),
      scrape_address_transactions addressId days2 (.ok tr) (.ok bc) = none ↔
        tr.transactions = []) ∧
    (∀ (addressId : String) (days2 : Nat) (bcTask : Except Unit ScrapeBcResult),
      scrape_address_transactions addressId days2 (.error ()) bcTask = none) ∧
    (∀ (addressId : String) (days2 : Nat) (tr : ScrapeTxResult),
      scrape_address_transactions addressId days2 (.ok tr) (.error ()) = none) := by
  refine ⟨?_, ?_, ?_, ?_⟩
  · rw [get_trading_history_none_iff, get_address_transactions_totalFound,
      List.length_eq_zero]
  · intro addressId days2 tr bc
    unfold scrape_address_transactions
    by_cases h : tr.transactions.isEmpty = true
    · simp [h, List.isEmpty_iff.1 h]
    · simp only [h, Bool.false_eq_true, if_false]
      constructor
      · intro hsome
        exact absurd hsome (by simp)
      · intro hempty
        exact absurd (by simp [hempty] : tr.transactions.isEmpty = true) h
  · intro addressId days2 bcTask
    rfl
  · intro addressId days2 tr
    unfold scrape_address_transactions
    by_cases h : tr.transactions.isEmpty = true
    · simp [h]
    · simp [h]

/-! ## Claim C9 -/

/-- C9 counterexample: a recent, non-failed row whose only program link
references the second configured Axiom program ID is accepted under the
specification's reading of the check (either of the two IDs) but is skipped
by the code, which tests only the first program ID. -/
theorem scrape_second_program_id_rejected :
    specRowAccepted rowSecondId = true ∧
    processRow 0 0 (-86400) 1 rowSecondId = .skipRow := by
  constructor <;> decide

/-- C9 (amended): a row with at least 9 cells whose parsed time is within
the cutoff is accepted as a transaction if and only if some program link
contains the first Axiom program ID (`AxiomfHaW…` — the second configured
ID is not checked by this task) and the row markup carries no failure
indicator. -/
theorem scrape_row_acceptance (nowSec absOracle cutoff : Int) (page : Nat)
    (r : TxRow) :
    (∃ tx, processRow nowSec absOracle cutoff page r = .accept tx) ↔
      (9 ≤ r.cellCount ∧
       ¬ timeParseValue nowSec absOracle (parse_time_text r.timeText) < cutoff ∧
       (r.programLinks.any fun href => isInfixB FIRST_AXIOM_ID.data href.data) = true ∧
       check_transaction_failed r.outerHtml = false) := by
  unfold processRow
  by_cases h1 : r.cellCount < 9
  · simp only [h1, if_true]
    constructor
    · rintro ⟨tx, htx⟩
      exact absurd htx (by simp)
    · rintro ⟨hc, -, -, -⟩
      omega
  · simp only [h1, if_false]
    by_cases h2 : timeParseValue nowSec absOracle (parse_time_text r.timeText) < cutoff
    · rw [if_pos h2]
      constructor
      · rintro ⟨tx, htx⟩
        exact absurd htx (by simp)
      · rintro ⟨-, ht, -, -⟩
        exact absurd h2 ht
    · rw [if_neg h2]
      by_cases h3 : (r.programLinks.any fun href => isInfixB FIRST_AXIOM_ID.data href.data) = true ∧
          check_transaction_failed r.outerHtml = false
      · rw [if_pos h3]
        constructor
        · rintro -
          exact ⟨by omega, h2, h3.1, h3.2⟩
        · rintro -
          exact ⟨_, rfl⟩
      · rw [if_neg h3]
        constructor
        · rintro ⟨tx, htx⟩
          exact absurd htx (by simp)
        · rintro ⟨-, -, ha, hf⟩
          exact absurd ⟨ha, hf⟩ h3
